import Mathlib

/- Verification of the identity-reconciliation subsystem and the
   message-ordering counter of the Signal-Desktop client.

   The embedding is shallow: the module state of
   ts/util/incrementMessageCounter.ts becomes an explicit record that the
   embedded functions thread, the in-memory conversation collection of the
   ConversationController double becomes a list of records indexed by
   position (position identity models JavaScript object identity), and the
   redux accounts duck becomes a pure action/reducer pair.  JavaScript
   numbers that matter to the control flow (NaN produced by Number(...)
   coercion, undefined returned by the database) are modelled explicitly;
   a string stored in localStorage is abstracted by the JavaScript number
   it coerces to. -/

/-- JavaScript value as seen by the counter module: undefined (also covering
null), NaN, or an integer.  Fractional doubles play no role here. -/
inductive JSNum where
  | undef : JSNum
  | nan : JSNum
  | num : Int → JSNum
deriving DecidableEq

/-- lodash isNumber: true for any value of JavaScript type number, including
NaN; false for undefined and null. -/
def isNumber : JSNum → Bool
  | JSNum.undef => false
  | JSNum.nan => true
  | JSNum.num _ => true

/-- Number(localStorage.getItem k): Number(null) is 0, a non-numeric string
gives NaN, a numeric string gives its value.  The stored item is abstracted
by the value it coerces to, so the result is never undefined. -/
def jsNumberOfItem : Option JSNum → JSNum
  | none => JSNum.num 0
  | some (JSNum.num n) => JSNum.num n
  | some JSNum.nan => JSNum.nan
  | some JSNum.undef => JSNum.nan

/-- Math.max: NaN-propagating; undefined coerces to NaN. -/
def jsMax : JSNum → JSNum → JSNum
  | JSNum.num a, JSNum.num b => JSNum.num (max a b)
  | _, _ => JSNum.nan

/-- JavaScript strict equality on these values: NaN is not equal to itself,
undefined is equal to undefined. -/
def jsStrictEq : JSNum → JSNum → Bool
  | JSNum.num a, JSNum.num b => a == b
  | JSNum.undef, JSNum.undef => true
  | _, _ => false

/-- x + 1 in JavaScript: NaN and undefined propagate to NaN. -/
def jsAddOne : JSNum → JSNum
  | JSNum.num n => JSNum.num (n + 1)
  | _ => JSNum.nan

/-- Strict order on returned counter values: only holds between actual
numbers (any comparison against NaN is false in JavaScript). -/
def jsLt : JSNum → JSNum → Prop
  | JSNum.num a, JSNum.num b => a < b
  | _, _ => False

/-- Module state of ts/util/incrementMessageCounter.ts: the module-level
receivedAtCounter (undefined before the first initialization) and the
localStorage item stored under the key lastReceivedAtCounter. -/
structure CounterStore where
  receivedAtCounter : Option JSNum
  lastReceivedAtCounterItem : Option JSNum
deriving DecidableEq

/-- Inputs read while seeding the counter: the durable-store maximum
Data.getMaxMessageCounter() and the wall clock Date.now(). -/
structure InitEnv where
  dbCounter : JSNum
  now : Int
deriving DecidableEq

/-- The two strictAssert failures of the counter module lifecycle. -/
inductive CounterErr where
  | alreadyInitialized : CounterErr
  | notInitialized : CounterErr
deriving DecidableEq

/-- initializeMessageCounter from ts/util/incrementMessageCounter.ts.  The
strictAssert on an already-set counter is modelled as an error result (a
thrown exception, which leaves the module state untouched).  The seed picks
max(dbCounter, storedCounter) when both pass isNumber, then the stored
counter, then the db counter, and only then Date.now(); it is written back
to localStorage when it differs (strict inequality) from the stored value. -/
def initializeMessageCounter (env : InitEnv) (s : CounterStore) :
    Except CounterErr CounterStore :=
  match s.receivedAtCounter with
  | some _ => Except.error CounterErr.alreadyInitialized
  | none =>
    let storedCounter := jsNumberOfItem s.lastReceivedAtCounterItem
    let dbCounter := env.dbCounter
    let seed :=
      if isNumber dbCounter && isNumber storedCounter then
        jsMax dbCounter storedCounter
      else if isNumber storedCounter then storedCounter
      else if isNumber dbCounter then dbCounter
      else JSNum.num env.now
    let item :=
      if jsStrictEq storedCounter seed then s.lastReceivedAtCounterItem
      else some seed
    Except.ok ⟨some seed, item⟩

/-- incrementMessageCounter from ts/util/incrementMessageCounter.ts: asserts
that the counter is initialized, adds one, returns the new value.  The
debounced localStorage write it schedules has not yet fired at return time,
so the stored item is unchanged by the call itself. -/
def incrementMessageCounter (s : CounterStore) :
    Except CounterErr (JSNum × CounterStore) :=
  match s.receivedAtCounter with
  | none => Except.error CounterErr.notInitialized
  | some v => Except.ok (jsAddOne v, ⟨some (jsAddOne v), s.lastReceivedAtCounterItem⟩)

/-- The counter value an initialization run seeds, projected out of the
resulting module state (none when the initialization itself failed). -/
def initSeed (env : InitEnv) (item : Option JSNum) : Option JSNum :=
  match initializeMessageCounter env ⟨none, item⟩ with
  | Except.ok s => s.receivedAtCounter
  | Except.error _ => none

/-- The list of values returned by k successive incrementMessageCounter
calls starting from a given module state (stopping if a call throws). -/
def collectIncrements : CounterStore → Nat → List JSNum
  | _, 0 => []
  | s, Nat.succ k =>
    match incrementMessageCounter s with
    | Except.ok (v, s') => v :: collectIncrements s' k
    | Except.error _ => []

/-- Truthiness of an optional JavaScript string: null, undefined and the
empty string are falsy. -/
def isTruthyStr : Option String → Bool
  | none => false
  | some s => !(s == "")

/-- String.prototype.toLowerCase restricted to the ASCII range that account
UUIDs are drawn from, applied character by character. -/
def jsToLower (s : String) : String :=
  String.mk (s.data.map Char.toLower)

/-- One conversation record, restricted to the attributes the identity
reconciliation code reads and writes: the generated stable id, the E.164
phone number, the account UUID, and the unregistered-discovery timestamp. -/
structure Conv where
  id : String
  e164 : Option String
  uuid : Option String
  discoveredUnregisteredAt : Option Int
deriving DecidableEq

/-- FakeConversationController.get: a conversation matches a key when its
id, its e164 attribute or its uuid attribute strictly equals the key. -/
def matchesId (key : String) (c : Conv) : Bool :=
  c.id == key || c.e164 == some key || c.uuid == some key

/-- Array.prototype.find over the controller's conversation list, returning
the position of the first match; position identity models JavaScript object
identity (the list never holds the same object twice). -/
def findConvIdx (key : String) : List Conv → Option Nat
  | [] => none
  | c :: cs => if matchesId key c then some 0 else (findConvIdx key cs).map (· + 1)

/-- In-place mutation of the conversation at a given position. -/
def modifyIdx : List Conv → Nat → (Conv → Conv) → List Conv
  | [], _, _ => []
  | c :: cs, 0, f => f c :: cs
  | c :: cs, Nat.succ n, f => c :: modifyIdx cs n f

/-- ConversationModel.unset of the e164 attribute. -/
def unsetE164 (c : Conv) : Conv :=
  { c with e164 := none }

/-- ConversationModel.updateE164, modelled as setting the e164 attribute
(the behavior the tests assert). -/
def updateE164 (v : String) (c : Conv) : Conv :=
  { c with e164 := some v }

/-- ConversationModel.updateUuid, modelled as setting the uuid attribute
(the behavior the tests assert). -/
def updateUuid (v : String) (c : Conv) : Conv :=
  { c with uuid := some v }

/-- The destructured argument object of maybeMergeContacts. -/
structure MergeArgs where
  e164 : Option String
  aci : Option String
  reason : Option String
deriving DecidableEq

/-- Branch logic of FakeConversationController.maybeMergeContacts after its
argument assertions: look up the first conversation matching the phone
number and the first matching the lowercased server UUID, then either
return the shared record, move the phone number onto the UUID-anchored
record, attach the UUID to the phone-number record, or throw. -/
def mergeCore (dir : List Conv) (p normU : String) :
    Except String (Option Nat × List Conv) :=
  match findConvIdx p dir, findConvIdx normU dir with
  | some iE, some iU =>
    if iE == iU then Except.ok (some iU, dir)
    else Except.ok (some iU, modifyIdx (modifyIdx dir iE unsetE164) iU (updateE164 p))
  | some iE, none =>
    Except.ok (some iE, modifyIdx dir iE (updateUuid normU))
  | none, some _ => Except.error "FakeConversationController should never get here"
  | none, none =>
    Except.error "at least one conversation should be found"

/-- FakeConversationController.maybeMergeContacts from
ts/test-electron/updateConversationsWithUuidLookup_test.ts: asserts that
e164, aci and reason are truthy (an assertion failure is a thrown error
that leaves every conversation untouched), lowercases the server UUID, and
runs the branch logic above. -/
def maybeMergeContacts (dir : List Conv) (args : MergeArgs) :
    Except String (Option Nat × List Conv) :=
  if isTruthyStr args.e164 = false then
    Except.error "E164 must be provided"
  else if isTruthyStr args.aci = false then
    Except.error "UUID must be provided"
  else if isTruthyStr args.reason = false then
    Except.error "reason must be provided when merging"
  else mergeCore dir (args.e164.getD "") (jsToLower (args.aci.getD ""))

/-- The conversation list after a mergeCore run; a thrown assertion leaves
the list unchanged. -/
def applyMergeCore (dir : List Conv) (p normU : String) : List Conv :=
  match mergeCore dir p normU with
  | Except.ok (_, d) => d
  | Except.error _ => dir

/-- The conversation list after a maybeMergeContacts call; a thrown
assertion leaves the list unchanged. -/
def applyMerge (dir : List Conv) (args : MergeArgs) : List Conv :=
  match maybeMergeContacts dir args with
  | Except.ok (_, d) => d
  | Except.error _ => dir

/-- The conversation list after a whole sequence of merge observations. -/
def applyMerges (dir : List Conv) (obs : List MergeArgs) : List Conv :=
  obs.foldl applyMerge dir

/-- The field value of the record at a position, none when the position is
out of range or the field is absent. -/
def fieldAt (f : Conv → Option String) (dir : List Conv) (i : Nat) : Option String :=
  (dir[i]?).bind f

/-- No two records at distinct positions hold the same truthy value of the
given field. -/
def UniqueBy (f : Conv → Option String) (dir : List Conv) : Prop :=
  ∀ i, i < dir.length → ∀ j, j < dir.length → i ≠ j →
    isTruthyStr (fieldAt f dir i) = true → fieldAt f dir i ≠ fieldAt f dir j

/-- The Directory uniqueness invariant: no two distinct records share a
non-empty phone number, and none share a non-empty account UUID. -/
def DirUnique (dir : List Conv) : Prop :=
  UniqueBy (fun c => c.e164) dir ∧ UniqueBy (fun c => c.uuid) dir

/-- The observed phone number reaches records only through the phoneNumber
field and the observed (normalized) account UUID only through the uuid
field: no record's id or uuid collides with the phone number, and no
record's id or e164 collides with the account UUID. -/
def TargetsFields (dir : List Conv) (p normU : String) : Prop :=
  (∀ c ∈ dir, c.id ≠ p ∧ c.uuid ≠ some p) ∧
  (∀ c ∈ dir, c.id ≠ normU ∧ c.e164 ≠ some normU)

/-- TargetsFields for the fields a maybeMergeContacts call actually looks
up. -/
def TargetsFieldsArgs (dir : List Conv) (args : MergeArgs) : Prop :=
  TargetsFields dir (args.e164.getD "") (jsToLower (args.aci.getD ""))

/-- Every observation of a trace targets only the intended fields of the
state it is applied to. -/
def GoodTrace : List Conv → List MergeArgs → Prop
  | _, [] => True
  | dir, o :: rest => TargetsFieldsArgs dir o ∧ GoodTrace (applyMerge dir o) rest

instance decUniqueBy (f : Conv → Option String) (dir : List Conv) :
    Decidable (UniqueBy f dir) := by
  unfold UniqueBy
  infer_instance

instance decDirUnique (dir : List Conv) : Decidable (DirUnique dir) := by
  unfold DirUnique
  infer_instance

instance decTargetsFields (dir : List Conv) (p normU : String) :
    Decidable (TargetsFields dir p normU) := by
  unfold TargetsFields
  infer_instance

instance decTargetsFieldsArgs (dir : List Conv) (args : MergeArgs) :
    Decidable (TargetsFieldsArgs dir args) := by
  unfold TargetsFieldsArgs
  infer_instance

instance decGoodTrace : (dir : List Conv) → (obs : List MergeArgs) →
    Decidable (GoodTrace dir obs)
  | _, [] => Decidable.isTrue trivial
  | dir, o :: rest =>
    have : Decidable (GoodTrace (applyMerge dir o) rest) := decGoodTrace _ rest
    inferInstanceAs (Decidable (TargetsFieldsArgs dir o ∧ GoodTrace (applyMerge dir o) rest))

/-- One directory-lookup result: the primary account identifier and the
optional secondary identifier. -/
structure LookupPair where
  aci : Option String
  pni : Option String
deriving DecidableEq

/-- Modelled from the spec: the per-candidate reconciliation step of
updateConversationsWithUuidLookup (the implementation file
ts/updateConversationsWithUuidLookup.ts is not among the reviewed sources;
only its test is).  Per spec 4.4: a candidate without a phone number is
skipped; a lookup result carrying a primary accountId is routed through the
merge resolver; a phone number with no result (a result without a primary
accountId counts as no result) triggers the authoritative existence check,
and only a negative answer clears the accountId and stamps
discoveredUnregisteredAt with the current time. -/
def processLookupResult (lookup : String → Option LookupPair)
    (existsCheck : Conv → Bool) (now : Int)
    (dir : List Conv) (i : Nat) : List Conv :=
  match dir[i]? with
  | none => dir
  | some c =>
    match c.e164 with
    | none => dir
    | some p =>
      match (lookup p).bind (fun pair => pair.aci) with
      | some a =>
        applyMerge dir ⟨some p, some a, some "updateConversationsWithUuidLookup"⟩
      | none =>
        if existsCheck c then dir
        else modifyIdx dir i
          (fun d => { d with uuid := none, discoveredUnregisteredAt := some now })

/-- Modelled from the spec: updateConversationsWithUuidLookup runs the
per-candidate reconciliation step over the candidate positions in order. -/
def updateConversationsWithUuidLookup (lookup : String → Option LookupPair)
    (existsCheck : Conv → Bool) (now : Int)
    (dir : List Conv) (candidates : List Nat) : List Conv :=
  candidates.foldl (processLookupResult lookup existsCheck now) dir

/-- A redux action of the accounts duck: NOOP or accounts/UPDATE. -/
inductive AccountsAction where
  | noop : AccountsAction
  | update : String → Option String → AccountsAction
deriving DecidableEq

/-- The accounts duck state: a JavaScript object mapping phone numbers to a
UUID or to undefined, modelled as an insertion-ordered association list
(a key present with value none models a property set to undefined, which
hasOwnProperty still reports). -/
structure AccountsState where
  accounts : List (String × Option String)
deriving DecidableEq

/-- Object spread update: replace the value of an existing key in place,
or append the key. -/
def updateAssoc : List (String × Option String) → String → Option String →
    List (String × Option String)
  | [], p, u => [(p, u)]
  | (k, v) :: rest, p, u =>
    if k == p then (k, u) :: rest else (k, v) :: updateAssoc rest p u

/-- Object.prototype.hasOwnProperty on the accounts object. -/
def hasOwn (st : AccountsState) (p : String) : Bool :=
  st.accounts.any (fun kv => kv.1 == p)

/-- The accounts duck reducer: accounts/UPDATE stores the payload uuid
(possibly undefined) under the phone number; NOOP leaves the state. -/
def accountsReducer (st : AccountsState) (a : AccountsAction) : AccountsState :=
  match a with
  | AccountsAction.noop => st
  | AccountsAction.update p u => ⟨updateAssoc st.accounts p u⟩

/-- The collaborators checkForAccount consults, snapshotted for one call:
whether window.textsecure.server is set, the conversation (if any) that
ConversationController.get finds for the phone number, the outcome of the
getUuidsForE164s server lookup for this number (an error models a rejected
promise), and the merged conversation maybeMergeContacts returns when the
lookup produced a pair. -/
structure CheckForAccountEnv where
  serverPresent : Bool
  conversation : Option Conv
  lookupResult : Except String (Option LookupPair)
  mergedConversation : Option Conv

/-- The tail of checkForAccount after the existing-contact shortcut: return
NOOP when the phone number is already a key of the accounts state;
otherwise perform the server lookup (boolean result component true), absorb
any rejection by logging, and dispatch accounts/UPDATE with whatever uuid
was obtained (none after a failure or an empty lookup). -/
def checkForAccountTail (env : CheckForAccountEnv) (st : AccountsState)
    (phoneNumber : String) : AccountsAction × Bool :=
  if hasOwn st phoneNumber then (AccountsAction.noop, false)
  else
    match env.lookupResult with
    | Except.error _ => (AccountsAction.update phoneNumber none, true)
    | Except.ok none => (AccountsAction.update phoneNumber none, true)
    | Except.ok (some _) =>
      (AccountsAction.update phoneNumber
        (env.mergedConversation.bind (fun c => c.uuid)), true)

/-- checkForAccount from the accounts duck: NOOP without a server; an
existing contact with a truthy uuid is dispatched without any lookup;
otherwise the tail above runs.  The returned boolean records whether the
remote lookup was performed. -/
def checkForAccount (env : CheckForAccountEnv) (st : AccountsState)
    (phoneNumber : String) : AccountsAction × Bool :=
  if env.serverPresent = false then (AccountsAction.noop, false)
  else
    match env.conversation with
    | some c =>
      if isTruthyStr c.uuid then (AccountsAction.update phoneNumber c.uuid, false)
      else checkForAccountTail env st phoneNumber
    | none => checkForAccountTail env st phoneNumber

/- ===================== Theorems ===================== -/

theorem length_modifyIdx (l : List Conv) (i : Nat) (f : Conv → Conv) :
    (modifyIdx l i f).length = l.length := by
  induction l generalizing i with
  | nil => rfl
  | cons c cs ih => cases i <;> simp [modifyIdx, ih]

theorem getElem?_modifyIdx (l : List Conv) (i j : Nat) (f : Conv → Conv) :
    (modifyIdx l i f)[j]? = if i = j then (l[j]?).map f else l[j]? := by
  induction l generalizing i j with
  | nil => simp [modifyIdx]
  | cons c cs ih =>
    cases i with
    | zero => cases j <;> simp [modifyIdx]
    | succ n =>
      cases j with
      | zero => simp [modifyIdx]
      | succ m =>
        simp only [modifyIdx, List.getElem?_cons_succ, ih n m]
        by_cases h : n = m
        · simp [h]
        · simp [h, show ¬n + 1 = m + 1 by omega]

theorem fieldAt_of_getElem? (f : Conv → Option String) {l : List Conv} {i : Nat}
    {c : Conv} (hc : l[i]? = some c) : fieldAt f l i = f c := by
  unfold fieldAt
  rw [hc]
  rfl

theorem fieldAt_modifyIdx_self (f : Conv → Option String) (g : Conv → Conv)
    {l : List Conv} {i : Nat} {c : Conv} (hc : l[i]? = some c) :
    fieldAt f (modifyIdx l i g) i = f (g c) := by
  unfold fieldAt
  rw [getElem?_modifyIdx, if_pos rfl, hc]
  rfl

theorem fieldAt_modifyIdx_other (f : Conv → Option String) (g : Conv → Conv)
    {l : List Conv} {i j : Nat} (h : i ≠ j) :
    fieldAt f (modifyIdx l i g) j = fieldAt f l j := by
  unfold fieldAt
  rw [getElem?_modifyIdx, if_neg h]

theorem fieldAt_modifyIdx_preserve (f : Conv → Option String) (g : Conv → Conv)
    (hfg : ∀ c, f (g c) = f c) (l : List Conv) (i j : Nat) :
    fieldAt f (modifyIdx l i g) j = fieldAt f l j := by
  unfold fieldAt
  rw [getElem?_modifyIdx]
  by_cases hij : i = j
  · rw [if_pos hij]
    cases l[j]? <;> simp [hfg]
  · rw [if_neg hij]

theorem UniqueBy_transfer (f : Conv → Option String) (l l' : List Conv)
    (hlen : l'.length = l.length)
    (hf : ∀ j, fieldAt f l' j = fieldAt f l j)
    (hU : UniqueBy f l) : UniqueBy f l' := by
  intro i hi j hj hne ht
  rw [hf i, hf j]
  rw [hf i] at ht
  exact hU i (hlen ▸ hi) j (hlen ▸ hj) hne ht

theorem matchesId_true_iff (key : String) (c : Conv) :
    matchesId key c = true ↔ (c.id = key ∨ c.e164 = some key ∨ c.uuid = some key) := by
  simp [matchesId]
  tauto

theorem matchesId_false_iff (key : String) (c : Conv) :
    matchesId key c = false ↔ (c.id ≠ key ∧ c.e164 ≠ some key ∧ c.uuid ≠ some key) := by
  simp [matchesId, not_or]
  tauto

theorem findConvIdx_eq_none_iff (key : String) (l : List Conv) :
    findConvIdx key l = none ↔ ∀ c ∈ l, matchesId key c = false := by
  induction l with
  | nil => simp [findConvIdx]
  | cons a as ih =>
    by_cases h : matchesId key a = true
    · simp [findConvIdx, h]
    · simp [findConvIdx, h, ih, Option.map_eq_none', Bool.not_eq_true] at *

theorem findConvIdx_eq_some_iff (key : String) (l : List Conv) (i : Nat) :
    findConvIdx key l = some i ↔
      ((∃ c, l[i]? = some c ∧ matchesId key c = true) ∧
        ∀ j, j < i → ∀ c, l[j]? = some c → matchesId key c = false) := by
  induction l generalizing i with
  | nil => simp [findConvIdx]
  | cons a as ih =>
    by_cases h : matchesId key a = true
    · simp only [findConvIdx, if_pos h]
      constructor
      · intro h0
        injection h0 with h0
        subst h0
        exact ⟨⟨a, by simp, h⟩, fun j hj c hc => absurd hj (Nat.not_lt_zero j)⟩
      · rintro ⟨⟨c, hc, hm⟩, hfirst⟩
        cases i with
        | zero => rfl
        | succ n =>
          have h0 := hfirst 0 (Nat.succ_pos n) a (by simp)
          rw [h] at h0
          exact absurd h0 (by simp)
    · simp only [findConvIdx, if_neg h]
      have hfalse : matchesId key a = false := by
        cases hma : matchesId key a
        · rfl
        · exact absurd hma h
      cases i with
      | zero =>
        constructor
        · intro hmap
          rcases Option.map_eq_some'.mp hmap with ⟨k, _, hk⟩
          exact absurd hk (by omega)
        · rintro ⟨⟨c, hc, hm⟩, _⟩
          rw [List.getElem?_cons_zero] at hc
          injection hc with hc
          subst hc
          exact absurd hm h
      | succ n =>
        constructor
        · intro hmap
          rcases Option.map_eq_some'.mp hmap with ⟨k, hk, hkk⟩
          have hkn : k = n := by omega
          rw [hkn] at hk
          rcases (ih n).mp hk with ⟨⟨c, hc, hm⟩, hfirst⟩
          refine ⟨⟨c, by simpa using hc, hm⟩, ?_⟩
          intro j hj c' hc'
          cases j with
          | zero =>
            rw [List.getElem?_cons_zero] at hc'
            injection hc' with hc'
            subst hc'
            exact hfalse
          | succ m =>
            rw [List.getElem?_cons_succ] at hc'
            exact hfirst m (by omega) c' hc'
        · rintro ⟨⟨c, hc, hm⟩, hfirst⟩
          have h1 : findConvIdx key as = some n := by
            apply (ih n).mpr
            refine ⟨⟨c, by simpa using hc, hm⟩, ?_⟩
            intro j hj c' hc'
            exact hfirst (j + 1) (by omega) c' (by simpa using hc')
          rw [h1]
          rfl

theorem getElem?_lt_length {l : List Conv} {i : Nat} {c : Conv}
    (hc : l[i]? = some c) : i < l.length := by
  by_contra h
  rw [List.getElem?_eq_none (by omega)] at hc
  cases hc

theorem mem_of_getElem?_conv {l : List Conv} {i : Nat} {c : Conv}
    (hc : l[i]? = some c) : c ∈ l := by
  have h := getElem?_lt_length hc
  rw [List.getElem?_eq_getElem h] at hc
  injection hc with hc
  exact hc ▸ List.getElem_mem h

theorem applyMergeCore_of_neither {dir : List Conv} {p normU : String}
    (h1 : findConvIdx p dir = none) (h2 : findConvIdx normU dir = none) :
    applyMergeCore dir p normU = dir := by
  unfold applyMergeCore mergeCore
  rw [h1, h2]

theorem applyMergeCore_of_uuid_only {dir : List Conv} {p normU : String} {iU : Nat}
    (h1 : findConvIdx p dir = none) (h2 : findConvIdx normU dir = some iU) :
    applyMergeCore dir p normU = dir := by
  unfold applyMergeCore mergeCore
  rw [h1, h2]

theorem applyMergeCore_of_e164_only {dir : List Conv} {p normU : String} {iE : Nat}
    (h1 : findConvIdx p dir = some iE) (h2 : findConvIdx normU dir = none) :
    applyMergeCore dir p normU = modifyIdx dir iE (updateUuid normU) := by
  unfold applyMergeCore mergeCore
  rw [h1, h2]

theorem applyMergeCore_of_same {dir : List Conv} {p normU : String} {i : Nat}
    (h1 : findConvIdx p dir = some i) (h2 : findConvIdx normU dir = some i) :
    applyMergeCore dir p normU = dir := by
  unfold applyMergeCore mergeCore
  rw [h1, h2]
  simp

theorem applyMergeCore_of_both {dir : List Conv} {p normU : String} {iE iU : Nat}
    (h1 : findConvIdx p dir = some iE) (h2 : findConvIdx normU dir = some iU)
    (hne : iE ≠ iU) :
    applyMergeCore dir p normU =
      modifyIdx (modifyIdx dir iE unsetE164) iU (updateE164 p) := by
  unfold applyMergeCore mergeCore
  rw [h1, h2]
  simp [hne]

theorem mem_collectIncrements (m : Int) (item : Option JSNum) (k : Nat) :
    ∀ b ∈ collectIncrements ⟨some (JSNum.num m), item⟩ k,
      ∃ x : Int, b = JSNum.num x ∧ m < x := by
  induction k generalizing m with
  | zero => intro b hb; simp [collectIncrements] at hb
  | succ k ih =>
    intro b hb
    have hb' : b ∈ JSNum.num (m + 1) ::
        collectIncrements ⟨some (JSNum.num (m + 1)), item⟩ k := hb
    rcases List.mem_cons.mp hb' with h | h
    · exact ⟨m + 1, h, by omega⟩
    · obtain ⟨x, hx, hlt⟩ := ih (m + 1) b h
      exact ⟨x, hx, by omega⟩

/-- Claim C2: within one process run, after an initialization that seeded
the counter with an actual number, every sequence of
incrementMessageCounter calls returns strictly increasing values. -/
theorem incrementMessageCounter_strictly_increasing
    (n : Int) (item : Option JSNum) (k : Nat) :
    (collectIncrements ⟨some (JSNum.num n), item⟩ k).Pairwise jsLt := by
  induction k generalizing n with
  | zero => exact List.Pairwise.nil
  | succ k ih =>
    show (JSNum.num (n + 1) ::
        collectIncrements ⟨some (JSNum.num (n + 1)), item⟩ k).Pairwise jsLt
    refine List.Pairwise.cons ?_ (ih (n + 1))
    intro b hb
    obtain ⟨x, hx, hlt⟩ := mem_collectIncrements (n + 1) item k b hb
    subst hx
    simpa [jsLt] using hlt

/-- Claim C1 counterexample: with persisted checkpoint 5, durable-store
maximum 3 and current wall-clock time 100, initialization seeds the counter
to 5, although the maximum of the three quantities is 100. -/
theorem initializeMessageCounter_ignores_clock :
    initSeed ⟨JSNum.num 3, 100⟩ (some (JSNum.num 5)) = some (JSNum.num 5) ∧
      max (max 5 3) 100 = (100 : Int) ∧ (5 : Int) ≠ 100 := by
  refine ⟨rfl, by decide, by decide⟩

/-- Claim C1 (amended): the seeded value is max(durableStoreMax,
persistedCheckpoint) when the durable store reports a number, and the
persisted checkpoint alone otherwise (0 standing in when no checkpoint item
is stored, since Number(null) = 0); the current wall-clock time is not
consulted in any of these cases. -/
theorem initializeMessageCounter_seed_formula :
    (∀ a b now : Int,
      initSeed ⟨JSNum.num b, now⟩ (some (JSNum.num a)) =
        some (JSNum.num (max b a))) ∧
    (∀ a now : Int,
      initSeed ⟨JSNum.undef, now⟩ (some (JSNum.num a)) = some (JSNum.num a)) ∧
    (∀ b now : Int,
      initSeed ⟨JSNum.num b, now⟩ none = some (JSNum.num (max b 0))) ∧
    (∀ now : Int, initSeed ⟨JSNum.undef, now⟩ none = some (JSNum.num 0)) :=
  ⟨fun _ _ _ => rfl, fun _ _ => rfl, fun _ _ => rfl, fun _ => rfl⟩

/-- Claim C9: a second initialization in one process lifetime fails with the
already-initialized assertion, and incrementMessageCounter before
initialization fails with the not-initialized assertion; the error result
models the thrown strictAssert, which fires before any mutation, so the
module state is unchanged by the failing call. -/
theorem counter_lifecycle_misuse :
    (∀ (env : InitEnv) (s : CounterStore), s.receivedAtCounter ≠ none →
      initializeMessageCounter env s = Except.error CounterErr.alreadyInitialized) ∧
    (∀ s : CounterStore, s.receivedAtCounter = none →
      incrementMessageCounter s = Except.error CounterErr.notInitialized) := by
  constructor
  · intro env s h
    obtain ⟨rc, item⟩ := s
    cases rc with
    | none => exact absurd rfl h
    | some v => rfl
  · intro s h
    obtain ⟨rc, item⟩ := s
    cases rc with
    | none => rfl
    | some v => exact absurd h (by simp)

theorem counter_lifecycle_misuse_witness :
    initializeMessageCounter ⟨JSNum.undef, 0⟩ ⟨some (JSNum.num 1), none⟩ =
      Except.error CounterErr.alreadyInitialized ∧
    incrementMessageCounter ⟨none, none⟩ =
      Except.error CounterErr.notInitialized :=
  ⟨counter_lifecycle_misuse.1 ⟨JSNum.undef, 0⟩ ⟨some (JSNum.num 1), none⟩
      (by decide),
   counter_lifecycle_misuse.2 ⟨none, none⟩ rfl⟩

/-- Claim C10: when no checkpoint item is stored (Number(null) = 0 passes
the isNumber guard) and the durable store reports no numeric maximum, the
counter seeds to 0, not to the wall clock; and the Date.now() fallback
cannot influence the seed while either input passes the isNumber guard. -/
theorem initializeMessageCounter_zero_default :
    (∀ now : Int, initializeMessageCounter ⟨JSNum.undef, now⟩ ⟨none, none⟩ =
      Except.ok ⟨some (JSNum.num 0), none⟩) ∧
    (∀ (db : JSNum) (item : Option JSNum) (now1 now2 : Int),
      (isNumber (jsNumberOfItem item) || isNumber db) = true →
      initializeMessageCounter ⟨db, now1⟩ ⟨none, item⟩ =
        initializeMessageCounter ⟨db, now2⟩ ⟨none, item⟩) := by
  constructor
  · intro now; rfl
  · intro db item now1 now2 _
    cases item with
    | none => cases db <;> rfl
    | some v => cases v <;> cases db <;> rfl

theorem initializeMessageCounter_zero_default_witness :
    initializeMessageCounter ⟨JSNum.undef, 7⟩ ⟨none, none⟩ =
      Except.ok ⟨some (JSNum.num 0), none⟩ ∧
    initializeMessageCounter ⟨JSNum.undef, 1⟩ ⟨none, none⟩ =
      initializeMessageCounter ⟨JSNum.undef, 2⟩ ⟨none, none⟩ :=
  ⟨initializeMessageCounter_zero_default.1 7,
   initializeMessageCounter_zero_default.2 JSNum.undef none 1 2 (by decide)⟩

theorem getD_ne_empty_of_truthy (o : Option String) (h : isTruthyStr o = true) :
    o.getD "" ≠ "" := by
  cases o with
  | none => simp [isTruthyStr] at h
  | some s => simpa [isTruthyStr] using h

theorem applyMerge_eq_core (dir : List Conv) (args : MergeArgs)
    (h1 : isTruthyStr args.e164 = true) (h2 : isTruthyStr args.aci = true)
    (h3 : isTruthyStr args.reason = true) :
    applyMerge dir args =
      applyMergeCore dir (args.e164.getD "") (jsToLower (args.aci.getD "")) := by
  unfold applyMerge maybeMergeContacts applyMergeCore
  rw [h1, h2, h3]
  simp

theorem applyMerge_eq_self_of_guard (dir : List Conv) (args : MergeArgs)
    (h : isTruthyStr args.e164 = false ∨ isTruthyStr args.aci = false ∨
      isTruthyStr args.reason = false) :
    applyMerge dir args = dir := by
  unfold applyMerge maybeMergeContacts
  rcases h with h | h | h
  · rw [h]
    simp
  · rw [h]
    cases he : isTruthyStr args.e164 <;> simp
  · rw [h]
    cases he : isTruthyStr args.e164 <;> cases ha : isTruthyStr args.aci <;> simp

theorem DirUnique_attach_uuid (dir : List Conv) (p normU : String) (iE : Nat)
    (hU : DirUnique dir) (hT : TargetsFields dir p normU)
    (hE : findConvIdx p dir = some iE)
    (hN : findConvIdx normU dir = none) :
    DirUnique (modifyIdx dir iE (updateUuid normU)) := by
  have hlen := length_modifyIdx dir iE (updateUuid normU)
  have hNoU : ∀ (k : Nat) (c : Conv), dir[k]? = some c → c.uuid ≠ some normU := by
    intro k c hc
    have hm := (findConvIdx_eq_none_iff normU dir).mp hN c (mem_of_getElem?_conv hc)
    exact ((matchesId_false_iff normU c).mp hm).2.2
  constructor
  · exact UniqueBy_transfer _ dir _ hlen
      (fun j => fieldAt_modifyIdx_preserve (fun c => c.e164) (updateUuid normU)
        (fun c => rfl) dir iE j) hU.1
  · intro i hi j hj hne ht
    rw [hlen] at hi hj
    by_cases hiE : iE = i
    · subst hiE
      obtain ⟨ci, hci⟩ : ∃ c, dir[iE]? = some c := ⟨_, List.getElem?_eq_getElem hi⟩
      obtain ⟨cj, hcj⟩ : ∃ c, dir[j]? = some c := ⟨_, List.getElem?_eq_getElem hj⟩
      rw [fieldAt_modifyIdx_self _ _ hci, fieldAt_modifyIdx_other _ _ hne,
        fieldAt_of_getElem? _ hcj]
      intro heq
      exact hNoU j cj hcj heq.symm
    · by_cases hjE : iE = j
      · subst hjE
        obtain ⟨ci, hci⟩ : ∃ c, dir[i]? = some c := ⟨_, List.getElem?_eq_getElem hi⟩
        obtain ⟨cj, hcj⟩ : ∃ c, dir[iE]? = some c := ⟨_, List.getElem?_eq_getElem hj⟩
        rw [fieldAt_modifyIdx_other _ _ hiE, fieldAt_of_getElem? _ hci,
          fieldAt_modifyIdx_self _ _ hcj]
        exact hNoU i ci hci
      · rw [fieldAt_modifyIdx_other _ _ hiE, fieldAt_modifyIdx_other _ _ hjE]
        rw [fieldAt_modifyIdx_other _ _ hiE] at ht
        exact hU.2 i hi j hj hne ht

theorem DirUnique_move_e164 (dir : List Conv) (p normU : String) (iE iU : Nat)
    (hp : p ≠ "") (hU : DirUnique dir) (hT : TargetsFields dir p normU)
    (hE : findConvIdx p dir = some iE) (hUx : findConvIdx normU dir = some iU)
    (hne : iE ≠ iU) :
    DirUnique (modifyIdx (modifyIdx dir iE unsetE164) iU (updateE164 p)) := by
  obtain ⟨⟨cE, hcE, hmE⟩, hfirstE⟩ := (findConvIdx_eq_some_iff p dir iE).mp hE
  have hiE : iE < dir.length := getElem?_lt_length hcE
  have hcEe : cE.e164 = some p := by
    rcases (matchesId_true_iff p cE).mp hmE with h | h | h
    · exact absurd h ((hT.1 cE (mem_of_getElem?_conv hcE)).1)
    · exact h
    · exact absurd h ((hT.1 cE (mem_of_getElem?_conv hcE)).2)
  have htE : isTruthyStr (fieldAt (fun c => c.e164) dir iE) = true := by
    rw [fieldAt_of_getElem? _ hcE, hcEe]
    simp [isTruthyStr, hp]
  have hOnly : ∀ (k : Nat) (c : Conv), dir[k]? = some c → k ≠ iE → c.e164 ≠ some p := by
    intro k c hc hk heq
    have hkl : k < dir.length := getElem?_lt_length hc
    have hdiff := hU.1 iE hiE k hkl (fun hh => hk hh.symm) htE
    apply hdiff
    rw [fieldAt_of_getElem? _ hcE, fieldAt_of_getElem? _ hc, hcEe, heq]
  obtain ⟨⟨cU, hcU, hmU⟩, hfirstU⟩ := (findConvIdx_eq_some_iff normU dir iU).mp hUx
  have hlen2 :
      (modifyIdx (modifyIdx dir iE unsetE164) iU (updateE164 p)).length = dir.length := by
    rw [length_modifyIdx, length_modifyIdx]
  set dir2 := modifyIdx (modifyIdx dir iE unsetE164) iU (updateE164 p) with hdir2
  have hd1 : ∀ k, (modifyIdx dir iE unsetE164)[k]? =
      if iE = k then (dir[k]?).map unsetE164 else dir[k]? :=
    fun k => getElem?_modifyIdx dir iE k unsetE164
  have hd2iU : dir2[iU]? = some (updateE164 p cU) := by
    rw [hdir2, getElem?_modifyIdx, if_pos rfl, hd1 iU, if_neg hne, hcU]
    rfl
  have hd2iE : dir2[iE]? = some (unsetE164 cE) := by
    rw [hdir2, getElem?_modifyIdx, if_neg (Ne.symm hne), hd1 iE, if_pos rfl, hcE]
    rfl
  have hd2other : ∀ (k : Nat), k ≠ iE → k ≠ iU → dir2[k]? = dir[k]? := by
    intro k h1 h2
    rw [hdir2, getElem?_modifyIdx, if_neg (fun hh => h2 hh.symm), hd1 k,
      if_neg (fun hh => h1 hh.symm)]
  have hFiU : fieldAt (fun c => c.e164) dir2 iU = some p := by
    rw [fieldAt_of_getElem? _ hd2iU]
    rfl
  have hFiE : fieldAt (fun c => c.e164) dir2 iE = none := by
    rw [fieldAt_of_getElem? _ hd2iE]
    rfl
  have hFother : ∀ (k : Nat) (c : Conv), k ≠ iE → k ≠ iU → dir[k]? = some c →
      fieldAt (fun d => d.e164) dir2 k = c.e164 := by
    intro k c h1 h2 hc
    unfold fieldAt
    rw [hd2other k h1 h2, hc]
    rfl
  constructor
  · intro i hi j hj hne' ht
    rw [hlen2] at hi hj
    by_cases hiU' : iU = i
    · subst hiU'
      by_cases hjE : iE = j
      · subst hjE
        rw [hFiU, hFiE]
        simp
      · by_cases hjU : iU = j
        · exact absurd hjU hne'
        · obtain ⟨cj, hcj⟩ : ∃ c, dir[j]? = some c := ⟨_, List.getElem?_eq_getElem hj⟩
          rw [hFiU, hFother j cj (fun h => hjE h.symm) (fun h => hjU h.symm) hcj]
          exact fun heq => hOnly j cj hcj (fun h => hjE h.symm) heq.symm
    · by_cases hiE' : iE = i
      · subst hiE'
        rw [hFiE] at ht
        simp [isTruthyStr] at ht
      · obtain ⟨ci, hci⟩ : ∃ c, dir[i]? = some c := ⟨_, List.getElem?_eq_getElem hi⟩
        have hFi := hFother i ci (fun h => hiE' h.symm) (fun h => hiU' h.symm) hci
        by_cases hjU : iU = j
        · subst hjU
          rw [hFi, hFiU]
          exact hOnly i ci hci (fun h => hiE' h.symm)
        · by_cases hjE : iE = j
          · subst hjE
            rw [hFi, hFiE]
            rw [hFi] at ht
            intro heq
            rw [heq] at ht
            simp [isTruthyStr] at ht
          · obtain ⟨cj, hcj⟩ : ∃ c, dir[j]? = some c := ⟨_, List.getElem?_eq_getElem hj⟩
            rw [hFi, hFother j cj (fun h => hjE h.symm) (fun h => hjU h.symm) hcj]
            rw [hFi] at ht
            have h' := hU.1 i hi j hj hne'
            rw [fieldAt_of_getElem? _ hci, fieldAt_of_getElem? _ hcj] at h'
            exact h' ht
  · refine UniqueBy_transfer _ dir _ hlen2 (fun j => ?_) hU.2
    rw [hdir2]
    rw [fieldAt_modifyIdx_preserve (fun c => c.uuid) (updateE164 p)
        (fun c => rfl) _ iU j,
      fieldAt_modifyIdx_preserve (fun c => c.uuid) unsetE164
        (fun c => rfl) dir iE j]

theorem applyMergeCore_preserves_unique (dir : List Conv) (p normU : String)
    (hp : p ≠ "") (hU : DirUnique dir) (hT : TargetsFields dir p normU) :
    DirUnique (applyMergeCore dir p normU) := by
  cases hE : findConvIdx p dir with
  | none =>
    cases hUx : findConvIdx normU dir with
    | none =>
      rw [applyMergeCore_of_neither hE hUx]
      exact hU
    | some iU =>
      rw [applyMergeCore_of_uuid_only hE hUx]
      exact hU
  | some iE =>
    cases hUx : findConvIdx normU dir with
    | none =>
      rw [applyMergeCore_of_e164_only hE hUx]
      exact DirUnique_attach_uuid dir p normU iE hU hT hE hUx
    | some iU =>
      by_cases hEq : iE = iU
      · subst hEq
        rw [applyMergeCore_of_same hE hUx]
        exact hU
      · rw [applyMergeCore_of_both hE hUx hEq]
        exact DirUnique_move_e164 dir p normU iE iU hp hU hT hE hUx hEq

theorem applyMerge_preserves_unique (dir : List Conv) (args : MergeArgs)
    (hU : DirUnique dir) (hT : TargetsFieldsArgs dir args) :
    DirUnique (applyMerge dir args) := by
  cases h1 : isTruthyStr args.e164 with
  | false =>
    rw [applyMerge_eq_self_of_guard dir args (Or.inl h1)]
    exact hU
  | true =>
    cases h2 : isTruthyStr args.aci with
    | false =>
      rw [applyMerge_eq_self_of_guard dir args (Or.inr (Or.inl h2))]
      exact hU
    | true =>
      cases h3 : isTruthyStr args.reason with
      | false =>
        rw [applyMerge_eq_self_of_guard dir args (Or.inr (Or.inr h3))]
        exact hU
      | true =>
        rw [applyMerge_eq_core dir args h1 h2 h3]
        exact applyMergeCore_preserves_unique _ _ _
          (getD_ne_empty_of_truthy _ h1) hU hT

theorem applyMergeCore_idem (dir : List Conv) (p normU : String)
    (hp : p ≠ "") (hU : DirUnique dir) (hT : TargetsFields dir p normU) :
    applyMergeCore (applyMergeCore dir p normU) p normU =
      applyMergeCore dir p normU := by
  cases hE : findConvIdx p dir with
  | none =>
    cases hUx : findConvIdx normU dir with
    | none =>
      rw [applyMergeCore_of_neither hE hUx, applyMergeCore_of_neither hE hUx]
    | some iU =>
      rw [applyMergeCore_of_uuid_only hE hUx, applyMergeCore_of_uuid_only hE hUx]
  | some iE =>
    cases hUx : findConvIdx normU dir with
    | none =>
      obtain ⟨⟨cE, hcE, hmE⟩, hfirstE⟩ := (findConvIdx_eq_some_iff p dir iE).mp hE
      have hNall := (findConvIdx_eq_none_iff normU dir).mp hUx
      have hcEe : cE.e164 = some p := by
        rcases (matchesId_true_iff p cE).mp hmE with h | h | h
        · exact absurd h ((hT.1 cE (mem_of_getElem?_conv hcE)).1)
        · exact h
        · exact absurd h ((hT.1 cE (mem_of_getElem?_conv hcE)).2)
      rw [applyMergeCore_of_e164_only hE hUx]
      have hdE : (modifyIdx dir iE (updateUuid normU))[iE]? =
          some (updateUuid normU cE) := by
        rw [getElem?_modifyIdx, if_pos rfl, hcE]
        rfl
      have hdother : ∀ (k : Nat), k ≠ iE →
          (modifyIdx dir iE (updateUuid normU))[k]? = dir[k]? := by
        intro k hk
        rw [getElem?_modifyIdx, if_neg (fun hh => hk hh.symm)]
      have hE' : findConvIdx p (modifyIdx dir iE (updateUuid normU)) = some iE := by
        apply (findConvIdx_eq_some_iff _ _ _).mpr
        refine ⟨⟨updateUuid normU cE, hdE, ?_⟩, ?_⟩
        · apply (matchesId_true_iff _ _).mpr
          exact Or.inr (Or.inl hcEe)
        · intro j hj c' hc'
          rw [hdother j (by omega)] at hc'
          exact hfirstE j hj c' hc'
      have hU' : findConvIdx normU (modifyIdx dir iE (updateUuid normU)) = some iE := by
        apply (findConvIdx_eq_some_iff _ _ _).mpr
        refine ⟨⟨updateUuid normU cE, hdE, ?_⟩, ?_⟩
        · apply (matchesId_true_iff _ _).mpr
          exact Or.inr (Or.inr rfl)
        · intro j hj c' hc'
          rw [hdother j (by omega)] at hc'
          exact hNall c' (mem_of_getElem?_conv hc')
      rw [applyMergeCore_of_same hE' hU']
    | some iU =>
      by_cases hEq : iE = iU
      · subst hEq
        rw [applyMergeCore_of_same hE hUx, applyMergeCore_of_same hE hUx]
      · obtain ⟨⟨cE, hcE, hmE⟩, hfirstE⟩ := (findConvIdx_eq_some_iff p dir iE).mp hE
        obtain ⟨⟨cU, hcU, hmU⟩, hfirstU⟩ :=
          (findConvIdx_eq_some_iff normU dir iU).mp hUx
        have hiE : iE < dir.length := getElem?_lt_length hcE
        have hcEe : cE.e164 = some p := by
          rcases (matchesId_true_iff p cE).mp hmE with h | h | h
          · exact absurd h ((hT.1 cE (mem_of_getElem?_conv hcE)).1)
          · exact h
          · exact absurd h ((hT.1 cE (mem_of_getElem?_conv hcE)).2)
        have hcUu : cU.uuid = some normU := by
          rcases (matchesId_true_iff normU cU).mp hmU with h | h | h
          · exact absurd h ((hT.2 cU (mem_of_getElem?_conv hcU)).1)
          · exact absurd h ((hT.2 cU (mem_of_getElem?_conv hcU)).2)
          · exact h
        have htE : isTruthyStr (fieldAt (fun c => c.e164) dir iE) = true := by
          rw [fieldAt_of_getElem? _ hcE, hcEe]
          simp [isTruthyStr, hp]
        have hOnly : ∀ (k : Nat) (c : Conv), dir[k]? = some c → k ≠ iE →
            c.e164 ≠ some p := by
          intro k c hc hk heq
          have hkl : k < dir.length := getElem?_lt_length hc
          have hdiff := hU.1 iE hiE k hkl (fun hh => hk hh.symm) htE
          apply hdiff
          rw [fieldAt_of_getElem? _ hcE, fieldAt_of_getElem? _ hc, hcEe, heq]
        rw [applyMergeCore_of_both hE hUx hEq]
        set dir2 := modifyIdx (modifyIdx dir iE unsetE164) iU (updateE164 p) with hdir2
        have hd1 : ∀ k, (modifyIdx dir iE unsetE164)[k]? =
            if iE = k then (dir[k]?).map unsetE164 else dir[k]? :=
          fun k => getElem?_modifyIdx dir iE k unsetE164
        have hd2iU : dir2[iU]? = some (updateE164 p cU) := by
          rw [hdir2, getElem?_modifyIdx, if_pos rfl, hd1 iU, if_neg hEq, hcU]
          rfl
        have hd2iE : dir2[iE]? = some (unsetE164 cE) := by
          rw [hdir2, getElem?_modifyIdx, if_neg (fun hh => hEq hh.symm), hd1 iE,
            if_pos rfl, hcE]
          rfl
        have hd2other : ∀ (k : Nat), k ≠ iE → k ≠ iU → dir2[k]? = dir[k]? := by
          intro k h1 h2
          rw [hdir2, getElem?_modifyIdx, if_neg (fun hh => h2 hh.symm), hd1 k,
            if_neg (fun hh => h1 hh.symm)]
        have hE2 : findConvIdx p dir2 = some iU := by
          apply (findConvIdx_eq_some_iff _ _ _).mpr
          refine ⟨⟨updateE164 p cU, hd2iU, ?_⟩, ?_⟩
          · apply (matchesId_true_iff _ _).mpr
            exact Or.inr (Or.inl rfl)
          · intro j hj c' hc'
            by_cases hjE : j = iE
            · subst hjE
              rw [hd2iE] at hc'
              injection hc' with hc'
              subst hc'
              apply (matchesId_false_iff _ _).mpr
              refine ⟨(hT.1 cE (mem_of_getElem?_conv hcE)).1, ?_,
                (hT.1 cE (mem_of_getElem?_conv hcE)).2⟩
              simp [unsetE164]
            · rw [hd2other j hjE (by omega)] at hc'
              apply (matchesId_false_iff _ _).mpr
              exact ⟨(hT.1 c' (mem_of_getElem?_conv hc')).1,
                hOnly j c' hc' hjE, (hT.1 c' (mem_of_getElem?_conv hc')).2⟩
        have hU2 : findConvIdx normU dir2 = some iU := by
          apply (findConvIdx_eq_some_iff _ _ _).mpr
          refine ⟨⟨updateE164 p cU, hd2iU, ?_⟩, ?_⟩
          · apply (matchesId_true_iff _ _).mpr
            exact Or.inr (Or.inr hcUu)
          · intro j hj c' hc'
            by_cases hjE : j = iE
            · subst hjE
              rw [hd2iE] at hc'
              injection hc' with hc'
              subst hc'
              have hmEfalse := hfirstU j hj cE hcE
              apply (matchesId_false_iff _ _).mpr
              refine ⟨(hT.2 cE (mem_of_getElem?_conv hcE)).1, ?_,
                ((matchesId_false_iff _ _).mp hmEfalse).2.2⟩
              simp [unsetE164]
            · rw [hd2other j hjE (by omega)] at hc'
              exact hfirstU j hj c' hc'
        rw [applyMergeCore_of_same hE2 hU2]

/-- Claim C5 (amended): the merge operation is idempotent on every
Directory state that satisfies the uniqueness invariants, provided the
observed phone number and (normalized) account UUID reach records only
through their own fields; without that proviso idempotence fails, as the
counterexample shows. -/
theorem applyMerge_idempotent (dir : List Conv) (args : MergeArgs)
    (hU : DirUnique dir) (hT : TargetsFieldsArgs dir args) :
    applyMerge (applyMerge dir args) args = applyMerge dir args := by
  cases h1 : isTruthyStr args.e164 with
  | false =>
    rw [applyMerge_eq_self_of_guard dir args (Or.inl h1),
      applyMerge_eq_self_of_guard dir args (Or.inl h1)]
  | true =>
    cases h2 : isTruthyStr args.aci with
    | false =>
      rw [applyMerge_eq_self_of_guard dir args (Or.inr (Or.inl h2)),
        applyMerge_eq_self_of_guard dir args (Or.inr (Or.inl h2))]
    | true =>
      cases h3 : isTruthyStr args.reason with
      | false =>
        rw [applyMerge_eq_self_of_guard dir args (Or.inr (Or.inr h3)),
          applyMerge_eq_self_of_guard dir args (Or.inr (Or.inr h3))]
      | true =>
        rw [applyMerge_eq_core dir args h1 h2 h3,
          applyMerge_eq_core _ args h1 h2 h3]
        exact applyMergeCore_idem _ _ _ (getD_ne_empty_of_truthy _ h1) hU hT

theorem applyMerge_idempotent_witness :
    applyMerge (applyMerge
        [⟨"id-a", some "+15550001111", none, none⟩,
          ⟨"id-b", none, some "aaaa-uuid", none⟩]
        ⟨some "+15550001111", some "AAAA-UUID", some "lookup"⟩)
      ⟨some "+15550001111", some "AAAA-UUID", some "lookup"⟩ =
    applyMerge
      [⟨"id-a", some "+15550001111", none, none⟩,
        ⟨"id-b", none, some "aaaa-uuid", none⟩]
      ⟨some "+15550001111", some "AAAA-UUID", some "lookup"⟩ :=
  applyMerge_idempotent _ _ (by decide) (by decide)

/-- Claim C5 counterexample: a Directory satisfying both uniqueness
invariants on which applying the observation ("p", "u") twice differs from
applying it once — the first record's local id collides with the observed
phone number, so the second application resolves the phone number to the
wrong record and attaches the UUID to it. -/
theorem maybeMergeContacts_not_idempotent :
    DirUnique [⟨"p", some "p", none, none⟩, ⟨"b", some "u", none, none⟩] ∧
    applyMerge (applyMerge
        [⟨"p", some "p", none, none⟩, ⟨"b", some "u", none, none⟩]
        ⟨some "p", some "u", some "merge"⟩)
      ⟨some "p", some "u", some "merge"⟩ ≠
    applyMerge [⟨"p", some "p", none, none⟩, ⟨"b", some "u", none, none⟩]
      ⟨some "p", some "u", some "merge"⟩ := by
  constructor <;> decide

/-- Claim C3 (amended): starting from a Directory state satisfying both
uniqueness invariants, every sequence of merge observations preserves them,
provided each observation reaches records only through the intended fields
(no record's local id or uuid equals an observed phone number, and no
record's local id or e164 equals an observed account UUID) at the state it
is applied to; the counterexample shows the proviso is necessary. -/
theorem applyMerges_preserves_unique (dir : List Conv) (obs : List MergeArgs)
    (hU : DirUnique dir) (hG : GoodTrace dir obs) :
    DirUnique (applyMerges dir obs) := by
  induction obs generalizing dir with
  | nil => exact hU
  | cons o rest ih =>
    obtain ⟨hT, hG'⟩ := hG
    exact ih (applyMerge dir o) (applyMerge_preserves_unique dir o hU hT) hG'

theorem applyMerges_preserves_unique_witness :
    DirUnique (applyMerges
      [⟨"id-a", some "+15550001111", none, none⟩,
        ⟨"id-b", none, some "aaaa-uuid", none⟩]
      [⟨some "+15550001111", some "AAAA-UUID", some "lookup"⟩]) :=
  applyMerges_preserves_unique _ _ (by decide) (by decide)

/-- Claim C3 counterexample: a Directory satisfying both uniqueness
invariants (three records, where the first record's local id equals the
phone number "p" held by the second) on which a single successful merge
observation ("p", "u") leaves two distinct records both holding the
non-empty phone number "p". -/
theorem maybeMergeContacts_breaks_uniqueness :
    DirUnique [⟨"p", some "x", none, none⟩, ⟨"j", some "p", none, none⟩,
      ⟨"b", none, some "u", none⟩] ∧
    ¬ DirUnique (applyMerges
      [⟨"p", some "x", none, none⟩, ⟨"j", some "p", none, none⟩,
        ⟨"b", none, some "u", none⟩]
      [⟨some "p", some "u", some "merge"⟩]) := by
  constructor <;> decide

/-- Claim C4 (amended): when the resolver observes (P, U) and finds a
record A by the phone number and a distinct record B by the normalized
account UUID, with A holding only the phone number and B holding only the
UUID, then B survives holding both the phone number and its UUID, A's phone
number is stripped — but A is not retired: the Directory keeps its length
and still holds A, now with neither field, at its old position. -/
theorem maybeMergeContacts_two_record_merge
    (dir : List Conv) (P U r : String) (iA iB : Nat) (cA cB : Conv)
    (hP : P ≠ "") (hUs : U ≠ "") (hr : r ≠ "")
    (hA : dir[iA]? = some cA) (hB : dir[iB]? = some cB)
    (hAe : cA.e164 = some P) (hAu : cA.uuid = none)
    (hBu : cB.uuid = some (jsToLower U)) (hBe : cB.e164 = none)
    (hfE : findConvIdx P dir = some iA)
    (hfU : findConvIdx (jsToLower U) dir = some iB)
    (hne : iA ≠ iB) :
    maybeMergeContacts dir ⟨some P, some U, some r⟩ =
      Except.ok (some iB, modifyIdx (modifyIdx dir iA unsetE164) iB (updateE164 P)) ∧
    (modifyIdx (modifyIdx dir iA unsetE164) iB (updateE164 P))[iB]? =
      some { cB with e164 := some P } ∧
    (modifyIdx (modifyIdx dir iA unsetE164) iB (updateE164 P))[iA]? =
      some { cA with e164 := none } ∧
    (modifyIdx (modifyIdx dir iA unsetE164) iB (updateE164 P)).length =
      dir.length := by
  refine ⟨?_, ?_, ?_, ?_⟩
  · unfold maybeMergeContacts mergeCore
    rw [show isTruthyStr (MergeArgs.mk (some P) (some U) (some r)).e164 = true by
        simp [isTruthyStr, hP],
      show isTruthyStr (MergeArgs.mk (some P) (some U) (some r)).aci = true by
        simp [isTruthyStr, hUs],
      show isTruthyStr (MergeArgs.mk (some P) (some U) (some r)).reason = true by
        simp [isTruthyStr, hr]]
    simp only [Option.getD_some]
    rw [hfE, hfU]
    simp [hne]
  · rw [getElem?_modifyIdx, if_pos rfl, getElem?_modifyIdx, if_neg hne, hB]
    rfl
  · rw [getElem?_modifyIdx, if_neg (Ne.symm hne), getElem?_modifyIdx, if_pos rfl, hA]
    rfl
  · rw [length_modifyIdx, length_modifyIdx]

theorem maybeMergeContacts_two_record_merge_witness :
    (modifyIdx (modifyIdx
        [⟨"id-a", some "+15550001111", none, none⟩,
          ⟨"id-b", none, some "u-1", none⟩] 0 unsetE164) 1
      (updateE164 "+15550001111"))[1]? =
        some ⟨"id-b", some "+15550001111", some "u-1", none⟩ ∧
    (modifyIdx (modifyIdx
        [⟨"id-a", some "+15550001111", none, none⟩,
          ⟨"id-b", none, some "u-1", none⟩] 0 unsetE164) 1
      (updateE164 "+15550001111"))[0]? =
        some ⟨"id-a", none, none, none⟩ :=
  ⟨(maybeMergeContacts_two_record_merge
      [⟨"id-a", some "+15550001111", none, none⟩,
        ⟨"id-b", none, some "u-1", none⟩]
      "+15550001111" "U-1" "merge" 0 1
      ⟨"id-a", some "+15550001111", none, none⟩
      ⟨"id-b", none, some "u-1", none⟩
      (by decide) (by decide) (by decide) rfl rfl rfl rfl (by decide) rfl
      (by decide) (by decide) (by decide)).2.1,
   (maybeMergeContacts_two_record_merge
      [⟨"id-a", some "+15550001111", none, none⟩,
        ⟨"id-b", none, some "u-1", none⟩]
      "+15550001111" "U-1" "merge" 0 1
      ⟨"id-a", some "+15550001111", none, none⟩
      ⟨"id-b", none, some "u-1", none⟩
      (by decide) (by decide) (by decide) rfl rfl rfl rfl (by decide) rfl
      (by decide) (by decide) (by decide)).2.2.1⟩

/-- Claim C4 counterexample: with record A holding only phoneNumber "p" and
record B holding only accountId "u", the merge observation ("p", "u")
leaves A in the Directory — the conversation list still has two entries and
A, now holding neither field, is still present — contradicting that A is
retired from the Directory. -/
theorem maybeMergeContacts_does_not_retire :
    applyMerge [⟨"a", some "p", none, none⟩, ⟨"b", none, some "u", none⟩]
        ⟨some "p", some "u", some "merge"⟩ =
      [⟨"a", none, none, none⟩, ⟨"b", some "p", some "u", none⟩] ∧
    (applyMerge [⟨"a", some "p", none, none⟩, ⟨"b", none, some "u", none⟩]
        ⟨some "p", some "u", some "merge"⟩).length = 2 := by
  constructor <;> decide

/-- Claim C6 (spec-modelled coordinator): a record that already holds an
accountId and for which the batch lookup returns no result keeps its
accountId, and its discoveredUnregisteredAt stays untouched, when the
explicit existence check reports existence — lookup omission alone never
clears a previously known accountId. -/
theorem processLookupResult_retains_accountId
    (lookup : String → Option LookupPair) (existsCheck : Conv → Bool)
    (now : Int) (dir : List Conv) (i : Nat) (c : Conv) (p u : String)
    (hc : dir[i]? = some c) (he : c.e164 = some p) (hu : c.uuid = some u)
    (hl : (lookup p).bind (fun pair => pair.aci) = none)
    (hx : existsCheck c = true) :
    processLookupResult lookup existsCheck now dir i = dir := by
  unfold processLookupResult
  simp [hc, he, hl, hx]

theorem processLookupResult_retains_accountId_witness :
    processLookupResult (fun _ => none) (fun _ => true) 1700000000000
      [⟨"id-1", some "+13215559876", some "existing-uuid", none⟩] 0 =
      [⟨"id-1", some "+13215559876", some "existing-uuid", none⟩] :=
  processLookupResult_retains_accountId (fun _ => none) (fun _ => true)
    1700000000000 _ 0 _ "+13215559876" "existing-uuid" rfl rfl rfl rfl rfl

/-- Claim C7 (spec-modelled coordinator): when the lookup returns no
primary accountId for the candidate's phone number and the authoritative
existence check reports false, the record's accountId becomes unset and its
discoveredUnregisteredAt is set to the current time, whether or not an
accountId was previously held. -/
theorem processLookupResult_marks_unregistered
    (lookup : String → Option LookupPair) (existsCheck : Conv → Bool)
    (now : Int) (dir : List Conv) (i : Nat) (c : Conv) (p : String)
    (hc : dir[i]? = some c) (he : c.e164 = some p)
    (hl : (lookup p).bind (fun pair => pair.aci) = none)
    (hx : existsCheck c = false) :
    (processLookupResult lookup existsCheck now dir i)[i]? =
      some { c with uuid := none, discoveredUnregisteredAt := some now } := by
  unfold processLookupResult
  simp [hc, he, hl, hx, getElem?_modifyIdx]

theorem processLookupResult_marks_unregistered_witness :
    (processLookupResult (fun _ => none) (fun _ => false) 1700000000000
      [⟨"id-1", some "+13215559876", some "existing-uuid", none⟩] 0)[0]? =
      some ⟨"id-1", some "+13215559876", none, some 1700000000000⟩ :=
  processLookupResult_marks_unregistered (fun _ => none) (fun _ => false)
    1700000000000 _ 0 _ "+13215559876" rfl rfl rfl rfl

theorem hasOwn_updateAssoc (l : List (String × Option String)) (p : String)
    (u : Option String) : hasOwn ⟨updateAssoc l p u⟩ p = true := by
  induction l with
  | nil => simp [hasOwn, updateAssoc]
  | cons kv rest ih =>
    obtain ⟨k, v⟩ := kv
    by_cases h : (k == p) = true
    · simp [hasOwn, updateAssoc, h]
    · have h' : (k == p) = false := by simpa using h
      simp [hasOwn, updateAssoc, h'] at ih ⊢
      exact ih

/-- Claim C8 counterexample: a transient failure of the remote lookup makes
checkForAccount dispatch accounts/UPDATE with no uuid (the first call did
perform the lookup), and the subsequent invocation for the same phone
number — even with the server now able to answer — dispatches NOOP without
performing the remote lookup again: the number is not retried. -/
theorem checkForAccount_no_retry :
    checkForAccount ⟨true, none, Except.error "Failed to fetch", none⟩ ⟨[]⟩
      "+12025550199" = (AccountsAction.update "+12025550199" none, true) ∧
    checkForAccount ⟨true, none, Except.ok (some ⟨some "fresh-uuid", none⟩), none⟩
      (accountsReducer ⟨[]⟩ (AccountsAction.update "+12025550199" none))
      "+12025550199" = (AccountsAction.noop, false) := by
  constructor <;> decide

/-- Claim C8 (amended): a transient lookup failure is fully absorbed — the
thunk completes by dispatching accounts/UPDATE with no uuid instead of
throwing — but the phone number is thereby cached in the accounts state, so
a later invocation for the same number (server present, no contact
resolution) short-circuits with NOOP and does not perform the remote lookup
again; the failed number is not eligible for retry. -/
theorem checkForAccount_failure_cached
    (env env' : CheckForAccountEnv) (st : AccountsState) (p e : String)
    (h1 : env.serverPresent = true) (h2 : env.conversation = none)
    (h3 : hasOwn st p = false) (h4 : env.lookupResult = Except.error e)
    (h5 : env'.serverPresent = true) (h6 : env'.conversation = none) :
    checkForAccount env st p = (AccountsAction.update p none, true) ∧
    checkForAccount env'
      (accountsReducer st (AccountsAction.update p none)) p =
      (AccountsAction.noop, false) := by
  constructor
  · unfold checkForAccount checkForAccountTail
    rw [h1, h2, h3, h4]
    simp
  · unfold checkForAccount checkForAccountTail
    rw [h5, h6]
    simp [accountsReducer, hasOwn_updateAssoc]

theorem checkForAccount_failure_cached_witness :
    checkForAccount ⟨true, none, Except.error "rate limited", none⟩ ⟨[]⟩
      "+13105550123" = (AccountsAction.update "+13105550123" none, true) ∧
    checkForAccount ⟨true, none, Except.ok none, none⟩
      (accountsReducer ⟨[]⟩ (AccountsAction.update "+13105550123" none))
      "+13105550123" = (AccountsAction.noop, false) :=
  checkForAccount_failure_cached ⟨true, none, Except.error "rate limited", none⟩
    ⟨true, none, Except.ok none, none⟩ ⟨[]⟩ "+13105550123" "rate limited"
    rfl rfl rfl rfl rfl rfl
